import Mathlib

/-!
Verification of the GitHub activity-feed application (server route
app/api/github-feed/route.ts and its client page) against its
natural-language specification.

The TypeScript source is shallowly embedded:
* JSON timestamps (ISO strings fed to new Date(...).getTime()) are modelled
  by their epoch-millisecond value, a natural number; the Date parse is
  then the identity on this representation.
* JavaScript numbers are modelled by the rationals; the builtin Number
  conversion is modelled on (optionally signed) decimal literals, with
  none standing for NaN.
* fetch outcomes are passed to the route as data: Except carries either a
  fulfilled HTTP response or the message of a rejection (network failure).
* The platform pair JSON.stringify / JSON.parse is modelled at the level
  of JSON trees: stringify-then-parse is the identity on trees, so export
  produces the tree of the serialized list and import reads a tree back.
-/

/-- Characters of a decimal literal folded to its value; none when a
non-digit occurs.  The empty list yields 0; callers enforce nonemptiness
where the source requires a digit. -/
def digitsVal (cs : List Char) : Option Nat :=
  cs.foldl
    (fun acc c =>
      match acc with
      | none => none
      | some n => if c.isDigit then some (n * 10 + (c.toNat - 48)) else none)
    (some 0)

/-- Unsigned decimal literal (integer part, optional fractional part) read
as a rational; none models NaN. -/
def parseDec (cs : List Char) : Option ℚ :=
  let ip := cs.takeWhile (· ≠ '.')
  let rest := cs.dropWhile (· ≠ '.')
  match rest with
  | [] => if ip.isEmpty then none else (digitsVal ip).map (fun n => (n : ℚ))
  | _ :: fp =>
    if ip.isEmpty && fp.isEmpty then none
    else
      match digitsVal ip, digitsVal fp with
      | some n, some m => some ((n : ℚ) + (m : ℚ) / ((10 : ℚ) ^ fp.length))
      | _, _ => none

/-- Leading and trailing whitespace removed from a character list. -/
def trimWs (cs : List Char) : List Char :=
  ((cs.dropWhile Char.isWhitespace).reverse.dropWhile Char.isWhitespace).reverse

/-- Model of the JavaScript builtin Number conversion on strings, restricted
to (optionally signed) decimal literals; whitespace is trimmed, the empty
string converts to 0, and none models NaN.  Exotic inputs (hex, exponent
forms, Infinity) are outside this model and are not exercised by any
claim. -/
def jsNum (s : String) : Option ℚ :=
  match trimWs s.toList with
  | [] => some 0
  | '-' :: cs => (parseDec cs).map (fun q => -q)
  | '+' :: cs => parseDec cs
  | cs => parseDec cs

/-- Model of JavaScript String.replace with a string pattern: only the
first occurrence of the pattern is replaced. -/
def replaceFirst (s pat rep : String) : String :=
  match s.splitOn pat with
  | [] => s
  | [x] => x
  | x :: rest => x ++ rep ++ String.intercalate pat rest

/-- JavaScript a || b on optional strings, where both a missing string and
the empty string are falsy. -/
def jsOrStr (a b : Option String) : Option String :=
  match a with
  | some s => if s = "" then b else some s
  | none => b

/-- Rendering of a JavaScript value interpolated into a template literal
where the value may be undefined. -/
def optStr (o : Option String) : String := o.getD "undefined"

/-! ### Raw GitHub events (the shape the route reads from the API) -/

/-- Raw actor object of a GitHub event; every field is read through
optional chaining in the source, so each is optional here. -/
structure RawActor where
  login : Option String
  avatar_url : Option String
  url : Option String
deriving DecidableEq, Repr

/-- Raw repo object; the source tests the object itself for truthiness and
then reads name directly. -/
structure RawRepo where
  name : String
deriving DecidableEq, Repr

/-- Commit entry of a PushEvent payload. -/
structure RawCommit where
  message : String
deriving DecidableEq, Repr

/-- Pull-request object of a PullRequestEvent payload. -/
structure RawPR where
  number : Nat
  title : Option String
  html_url : Option String
deriving DecidableEq, Repr

/-- Issue object of an IssuesEvent / IssueCommentEvent payload. -/
structure RawIssue where
  number : Nat
  title : Option String
  html_url : Option String
deriving DecidableEq, Repr

/-- Forkee object of a ForkEvent payload. -/
structure RawForkee where
  html_url : Option String
deriving DecidableEq, Repr

/-- Release object of a ReleaseEvent payload. -/
structure RawRelease where
  tag_name : Option String
  html_url : Option String
deriving DecidableEq, Repr

/-- Payload of a raw event; only the fields the route reads are modelled,
each optional because the source reads them with optional chaining. -/
structure RawPayload where
  commits : Option (List RawCommit)
  ref : Option String
  ref_type : Option String
  action : Option String
  pull_request : Option RawPR
  issue : Option RawIssue
  forkee : Option RawForkee
  release : Option RawRelease
deriving DecidableEq, Repr

/-- Raw GitHub event as consumed by the route.  created_at is the ISO
timestamp modelled by its epoch-millisecond value. -/
structure RawEvent where
  id : String
  type : String
  actor : Option RawActor
  repo : Option RawRepo
  payload : Option RawPayload
  created_at : Nat
deriving DecidableEq, Repr

/-- Display repo of a normalized event; the source always constructs the
url from the name. -/
structure NormRepo where
  name : String
  url : String
deriving DecidableEq, Repr

/-- Display actor of a normalized event. -/
structure NormActor where
  login : String
  avatar_url : Option String
  url : Option String
deriving DecidableEq, Repr

/-- Normalized event returned by the route (type NormalizedGithubEvent in
the client). -/
structure NormalizedEvent where
  id : String
  type : String
  actionText : String
  url : Option String
  repo : Option NormRepo
  actor : NormActor
  created_at : Nat
  icon : String
  details : Option (List String)
deriving DecidableEq, Repr

/-- Actor derivation at the top of normalizeEvent: login falls back to the
empty string, the profile url rewrites the API host and otherwise falls
back to a github.com url when the raw login is truthy. -/
def normActorOf (e : RawEvent) : NormActor :=
  let rawLogin : Option String := e.actor.bind (·.login)
  let login : String := rawLogin.getD ""
  { login := login
    avatar_url := e.actor.bind (·.avatar_url)
    url :=
      jsOrStr ((e.actor.bind (·.url)).map
          (fun u => replaceFirst u "api.github.com/users" "github.com"))
        (match rawLogin with
         | some l => if l = "" then none else some ("https://github.com/" ++ l)
         | none => none) }

/-- Repo derivation at the top of normalizeEvent. -/
def normRepoOf (e : RawEvent) : Option NormRepo :=
  e.repo.map (fun r => { name := r.name, url := "https://github.com/" ++ r.name })

/-- Translation of normalizeEvent: the per-category dispatch producing the
display fields of a normalized event. -/
def normalizeEvent (e : RawEvent) : NormalizedEvent :=
  let actor := normActorOf e
  let repo := normRepoOf e
  let created_at := e.created_at
  match e.type with
  | "PushEvent" =>
    let commits := (e.payload.bind (·.commits)).getD []
    let details := commits.map (fun c => "commit: " ++ c.message)
    let branch := (e.payload.bind (·.ref)).map
      (fun r => replaceFirst r "refs/heads/" "")
    { id := e.id, type := e.type
      actionText := actor.login ++ " が " ++ optStr branch ++ " に "
        ++ toString commits.length ++ " 件プッシュ"
      url := repo.map (·.url), repo := repo, actor := actor
      created_at := created_at, icon := "git-commit", details := some details }
  | "PullRequestEvent" =>
    let action := e.payload.bind (·.action)
    let pr := e.payload.bind (·.pull_request)
    { id := e.id, type := e.type
      actionText := actor.login ++ " が PR を " ++ optStr action ++ ": #"
        ++ (match pr with | some p => toString p.number | none => "undefined")
        ++ " " ++ (pr.bind (·.title)).getD ""
      url := pr.bind (·.html_url), repo := repo, actor := actor
      created_at := created_at, icon := "git-pull-request", details := none }
  | "IssuesEvent" =>
    let action := e.payload.bind (·.action)
    let issue := e.payload.bind (·.issue)
    { id := e.id, type := e.type
      actionText := actor.login ++ " が Issue を " ++ optStr action ++ ": #"
        ++ (match issue with | some i => toString i.number | none => "undefined")
        ++ " " ++ (issue.bind (·.title)).getD ""
      url := issue.bind (·.html_url), repo := repo, actor := actor
      created_at := created_at, icon := "git-branch", details := none }
  | "IssueCommentEvent" =>
    let action := e.payload.bind (·.action)
    let issue := e.payload.bind (·.issue)
    { id := e.id, type := e.type
      actionText := actor.login ++ " が Issue にコメント (" ++ optStr action ++ ")"
      url := issue.bind (·.html_url), repo := repo, actor := actor
      created_at := created_at, icon := "message-square", details := none }
  | "WatchEvent" =>
    { id := e.id, type := e.type
      actionText := actor.login ++ " が Star を付けました"
      url := repo.map (·.url), repo := repo, actor := actor
      created_at := created_at, icon := "star", details := none }
  | "ForkEvent" =>
    let forkee := e.payload.bind (·.forkee)
    { id := e.id, type := e.type
      actionText := actor.login ++ " がフォークしました"
      url := jsOrStr (forkee.bind (·.html_url)) (repo.map (·.url))
      repo := repo, actor := actor
      created_at := created_at, icon := "git-fork", details := none }
  | "CreateEvent" =>
    let refType := e.payload.bind (·.ref_type)
    let ref := e.payload.bind (·.ref)
    { id := e.id, type := e.type
      actionText := actor.login ++ " が " ++ optStr refType
        ++ (match ref with
            | some r => if r = "" then "" else ": " ++ r
            | none => "")
        ++ " を作成"
      url := repo.map (·.url), repo := repo, actor := actor
      created_at := created_at, icon := "file-plus", details := none }
  | "ReleaseEvent" =>
    let rel := e.payload.bind (·.release)
    { id := e.id, type := e.type
      actionText := actor.login ++ " がリリースを公開: " ++ (rel.bind (·.tag_name)).getD ""
      url := jsOrStr (rel.bind (·.html_url)) (repo.map (·.url))
      repo := repo, actor := actor
      created_at := created_at, icon := "tag", details := none }
  | "PublicEvent" =>
    { id := e.id, type := e.type
      actionText := actor.login ++ " がリポジトリを公開しました"
      url := repo.map (·.url), repo := repo, actor := actor
      created_at := created_at, icon := "globe", details := none }
  | ty =>
    { id := e.id, type := e.type
      actionText := actor.login ++ " が " ++ ty ++ " を実行"
      url := repo.map (·.url), repo := repo, actor := actor
      created_at := created_at, icon := "github", details := none }

/-! ### Merge-by-id deduplication (the reduce into a keyed mapping) -/

/-- One step of the reduce at route.ts line 68: writing an event into the
mapping keyed by id, replacing the entry already present for that id or
appending a fresh key.  Replacement in place matches the insertion-order
semantics of JavaScript object keys. -/
def upsert (acc : List RawEvent) (e : RawEvent) : List RawEvent :=
  if acc.any (fun x => x.id == e.id) then
    acc.map (fun x => if x.id == e.id then e else x)
  else acc ++ [e]

/-- Deduplication by id of a combined event list: the reduce into a keyed
mapping followed by reading the values back (later entries overwrite
earlier ones). -/
def dedupeById (l : List RawEvent) : List RawEvent := l.foldl upsert []

/-- Identifier list of an event list. -/
def idsOf (l : List RawEvent) : List String := l.map (·.id)

/-! ### Descending sort by timestamp -/

/-- Ordering produced by the comparator (a, b) => key b - key a: an element
comes before another when its key is at least as large. -/
def keyGE {α : Type} (key : α → Nat) (a b : α) : Prop := key b ≤ key a

instance {α : Type} (key : α → Nat) : DecidableRel (keyGE key) :=
  fun a b => inferInstanceAs (Decidable (key b ≤ key a))

instance {α : Type} (key : α → Nat) : IsTotal α (keyGE key) :=
  ⟨fun a b => le_total (key b) (key a)⟩

instance {α : Type} (key : α → Nat) : IsTrans α (keyGE key) :=
  ⟨fun _ _ _ h₁ h₂ => le_trans h₂ h₁⟩

/-- Stable sort in non-increasing key order.  The JavaScript engine's sort
is stable, and a stable sort for a total preorder is extensionally unique,
so insertion sort is a faithful model of Array.prototype.sort with the
comparator (a, b) => key b - key a. -/
def sortDescBy {α : Type} (key : α → Nat) (l : List α) : List α :=
  List.insertionSort (keyGE key) l

/-- Normalize-and-sort step of the route (lines 73-75) applied to the
deduplicated values. -/
def serverNormalizeSort (l : List RawEvent) : List NormalizedEvent :=
  sortDescBy (fun e => e.created_at) (l.map normalizeEvent)

/-! ### Rate-limit headers and the GET route -/

/-- Rate-limit counters returned on success. -/
structure Rate where
  limit : Option ℚ
  remaining : Option ℚ
  reset : Option ℚ
deriving DecidableEq, Repr

/-- One counter from one header: the expression
(h.get(name) && Number(h.get(name))) || undefined.  A missing header, the
empty string (falsy), a NaN conversion and a zero conversion (both falsy)
all yield undefined. -/
def headerNum (h : Option String) : Option ℚ :=
  match h with
  | none => none
  | some s =>
    if s = "" then none
    else
      match jsNum s with
      | none => none
      | some q => if q = 0 then none else some q

/-- Header lookup on a response's header list. -/
def getHeader (hs : List (String × String)) (k : String) : Option String :=
  (hs.find? (fun p => p.1 == k)).map (·.2)

/-- Rate object assembled at route.ts lines 48-56. -/
def mkRate (hs : List (String × String)) : Rate :=
  { limit := headerNum (getHeader hs "x-ratelimit-limit")
    remaining := headerNum (getHeader hs "x-ratelimit-remaining")
    reset := headerNum (getHeader hs "x-ratelimit-reset") }

/-- Fulfilled HTTP response as the route consumes it: the ok flag and
status, the header list, the body as text and the body parsed as an event
list. -/
structure HttpResponse where
  ok : Bool
  status : Nat
  headers : List (String × String)
  bodyText : String
  bodyEvents : List RawEvent
deriving DecidableEq, Repr

/-- Body of the route's JSON response. -/
inductive ApiBody where
  | err (message : String)
  | ok (events : List NormalizedEvent) (rate : Rate)
deriving DecidableEq, Repr

/-- Response of the route: an HTTP status with a JSON body. -/
structure ApiResult where
  status : Nat
  body : ApiBody
deriving DecidableEq, Repr

/-- Events of a successful route response (empty on an error body). -/
def eventsOf (r : ApiResult) : List NormalizedEvent :=
  match r.body with
  | .ok evs _ => evs
  | .err _ => []

/-- Translation of the GET handler.  The two fetch outcomes are passed as
data: Except.ok is a fulfilled response, Except.error the message of a
rejection.  When includeReceived is false the secondary outcome is unused
(the source joins against a resolved null placeholder).  A rejection of
either awaited fetch propagates to the catch clause, which responds 500
with the rejection's message (or a fixed fallback when that message is
empty, mirroring e.message || "Failed"). -/
def GET (username : Option String) (includeReceived : Bool)
    (userOutcome receivedOutcome : Except String HttpResponse) : ApiResult :=
  match username with
  | none => ⟨400, .err "username is required"⟩
  | some un =>
    if un = "" then ⟨400, .err "username is required"⟩
    else
      let joint : Except String (HttpResponse × Option HttpResponse) :=
        match userOutcome with
        | .error m => .error m
        | .ok u =>
          if includeReceived then
            match receivedOutcome with
            | .error m => .error m
            | .ok r => .ok (u, some r)
          else .ok (u, none)
      match joint with
      | .error m => ⟨500, .err (if m = "" then "Failed" else m)⟩
      | .ok (u, ro) =>
        let rate := mkRate u.headers
        if u.ok then
          let received : List RawEvent :=
            match ro with
            | some r => if r.ok then r.bodyEvents else []
            | none => []
          ⟨200, .ok (serverNormalizeSort (dedupeById (u.bodyEvents ++ received))) rate⟩
        else ⟨u.status, .err (if u.bodyText = "" then "GitHub error" else u.bodyText)⟩

/-- Page-size value parsed and forwarded by the route (line 22):
Number(searchParams.get("per_page") || "30"), where a missing parameter
and the empty string both fall back to the literal "30". -/
def serverPerPage (p : Option String) : Option ℚ :=
  jsNum (match p with
         | none => "30"
         | some s => if s = "" then "30" else s)

/-- Page-size rule of the client-side zod schema (githubSchema, lines
307-311): z.number().min(1).max(100).default(30).  The default applies to
a missing field; min and max validate the value without clamping, so an
out-of-range number is rejected. -/
def githubSchemaPerPage (p : Option ℚ) : Option ℚ :=
  match p with
  | none => some 30
  | some q => if 1 ≤ q ∧ q ≤ 100 then some q else none

/-! ### Local capture events and the client page -/

/-- Capture categories of the MyActivityEvent type. -/
inductive CaptureType where
  | click
  | keydown
  | scroll
  | routeChange
  | visibility
  | heartbeat
  | copyEv
deriving DecidableEq, Repr

/-- String tag a capture category carries in the serialized form. -/
def captureTypeStr : CaptureType → String
  | .click => "click"
  | .keydown => "keydown"
  | .scroll => "scroll"
  | .routeChange => "route-change"
  | .visibility => "visibility"
  | .heartbeat => "heartbeat"
  | .copyEv => "copy"

/-- Inverse reading of a capture-category tag. -/
def captureTypeOfStr (s : String) : Option CaptureType :=
  match s with
  | "click" => some .click
  | "keydown" => some .keydown
  | "scroll" => some .scroll
  | "route-change" => some .routeChange
  | "visibility" => some .visibility
  | "heartbeat" => some .heartbeat
  | "copy" => some .copyEv
  | _ => none

/-- JSON trees, the common value space of stringify and parse. -/
inductive Json where
  | null
  | bool (b : Bool)
  | num (q : ℚ)
  | str (s : String)
  | arr (items : List Json)
  | obj (fields : List (String × Json))

/-- Local capture event (type MyActivityEvent).  The meta mapping holds
arbitrary JSON data; created_at is the ISO timestamp modelled by its
epoch-millisecond value. -/
structure MyActivityEvent where
  id : String
  type : CaptureType
  label : String
  created_at : Nat
  meta : Option (List (String × Json))
  icon : String

/-- Prepend-and-cap of the shared add helper (line 419):
[e, ...prev].slice(0, 2000). -/
def addCapped (e : MyActivityEvent) (prev : List MyActivityEvent) :
    List MyActivityEvent :=
  (e :: prev).take 2000

/-- Prepend of the route-change effect (lines 522-538), which updates the
list directly instead of going through the shared helper. -/
def addRouteChange (e : MyActivityEvent) (prev : List MyActivityEvent) :
    List MyActivityEvent :=
  e :: prev

/-- Field lookup in a JSON object, first binding wins. -/
def jlookup (k : String) : List (String × Json) → Option Json
  | [] => none
  | (k', v) :: rest => if k' = k then some v else jlookup k rest

/-- JSON tree JSON.stringify produces for one local capture event: the
fields in the order the handlers construct the object literal, with the
meta property omitted when the event has none (stringify drops undefined
properties; the copy handler builds its literal without meta). -/
def encodeEvent (e : MyActivityEvent) : Json :=
  Json.obj
    ([("id", Json.str e.id),
      ("type", Json.str (captureTypeStr e.type)),
      ("label", Json.str e.label),
      ("created_at", Json.num (e.created_at : ℚ))]
      ++ (match e.meta with
          | some m => [("meta", Json.obj m)]
          | none => [])
      ++ [("icon", Json.str e.icon)])

/-- Reading of a parsed JSON tree back as one local capture event.  The
source performs an unchecked cast on the parse result; this function
realizes that cast on trees of the serialized shape, yielding none on a
tree of any other shape. -/
def decodeEvent (j : Json) : Option MyActivityEvent :=
  match j with
  | Json.obj fs =>
    match jlookup "id" fs, jlookup "type" fs, jlookup "label" fs,
        jlookup "created_at" fs, jlookup "icon" fs with
    | some (Json.str id), some (Json.str ty), some (Json.str lb),
        some (Json.num q), some (Json.str ic) =>
      match captureTypeOfStr ty with
      | some t =>
        if 0 ≤ q.num ∧ q.den = 1 then
          some { id := id, type := t, label := lb, created_at := q.num.toNat
                 meta := match jlookup "meta" fs with
                         | some (Json.obj m) => some m
                         | _ => none
                 icon := ic }
        else none
      | none => none
    | _, _, _, _, _ => none
  | _ => none

/-- Export of the local list (exportLocal, lines 591-599): the JSON
document serialized into the downloaded file, as a tree. -/
def exportLocal (l : List MyActivityEvent) : Json :=
  Json.arr (l.map encodeEvent)

/-- Reading of a list of parsed JSON trees back as capture events, failing
when any item has an unexpected shape. -/
def decodeItems : List Json → Option (List MyActivityEvent)
  | [] => some []
  | j :: rest =>
    match decodeEvent j, decodeItems rest with
    | some e, some t => some (e :: t)
    | _, _ => none

/-- Import of a file (onImport, lines 601-613): the parsed JSON tree read
back as the replacement list; none models the parse-failure alert path. -/
def onImport (j : Json) : Option (List MyActivityEvent) :=
  match j with
  | Json.arr items => decodeItems items
  | _ => none

/-! ### Scroll-watermark state machine of the tracking effect -/

/-- Tracking-effect state of the page: whether capture is on, and the
maxScroll variable of the effect closure (line 450), meaningful while
capture is on and fresh on each effect run. -/
structure TrackState where
  tracking : Bool
  maxScroll : Nat
deriving DecidableEq, Repr

/-- Actions on the tracking effect: the user toggling the capture switch
to a value, and a scroll observation at a given depth percentage. -/
inductive TrackAction where
  | toggle (b : Bool)
  | scrollTo (depth : Nat)
deriving DecidableEq, Repr

/-- State a fresh capturing session starts in: tracking on, watermark 0. -/
def trackingOn : TrackState := ⟨true, 0⟩

/-- Whether an observed depth emits a scroll capture event in a state: the
listener exists only while tracking, and emits only when the depth
strictly exceeds the session watermark (line 455). -/
def scrollEmits (s : TrackState) (depth : Nat) : Bool :=
  s.tracking && decide (s.maxScroll < depth)

/-- One step of the tracking effect.  Setting the switch to its current
value leaves the effect untouched (the effect re-runs only when the
tracking dependency changes); changing it tears the effect down or brings
it up with a fresh closure, so the watermark is 0 again.  A scroll while
tracking raises the watermark when the depth exceeds it. -/
def trackStep (s : TrackState) (a : TrackAction) : TrackState :=
  match a with
  | .toggle b => if b = s.tracking then s else { tracking := b, maxScroll := 0 }
  | .scrollTo d =>
    if s.tracking && decide (s.maxScroll < d) then { s with maxScroll := d } else s

/-- Run of the tracking effect over a sequence of actions. -/
def runTrack (s : TrackState) (as : List TrackAction) : TrackState :=
  as.foldl trackStep s

/-! ### Unified feed of the presenter -/

/-- Item of the unified feed: a remote normalized event or a local capture
event, tagged by source. -/
inductive UnifiedItem where
  | github (e : NormalizedEvent)
  | localItem (e : MyActivityEvent)

/-- Timestamp of a unified item. -/
def UnifiedItem.created_at : UnifiedItem → Nat
  | .github e => e.created_at
  | .localItem e => e.created_at

/-- Unified view computed by the presenter (lines 576-582): both sources
tagged, concatenated and sorted in non-increasing timestamp order. -/
def unified (gh : List NormalizedEvent) (locals : List MyActivityEvent) :
    List UnifiedItem :=
  sortDescBy UnifiedItem.created_at
    (gh.map UnifiedItem.github ++ locals.map UnifiedItem.localItem)

/-! ### Lemmas about merge-by-id -/

theorem idsOf_upsert (acc : List RawEvent) (e : RawEvent) :
    idsOf (upsert acc e) =
      if e.id ∈ idsOf acc then idsOf acc else idsOf acc ++ [e.id] := by
  unfold upsert
  by_cases h : e.id ∈ idsOf acc
  · rw [if_pos h]
    have hany : acc.any (fun x => x.id == e.id) = true := by
      rcases List.mem_map.1 h with ⟨a, ha, hid⟩
      exact List.any_eq_true.2 ⟨a, ha, by simp [hid]⟩
    rw [if_pos hany]
    unfold idsOf
    rw [List.map_map]
    apply List.map_congr_left
    intro a _
    by_cases hx : a.id = e.id <;> simp [hx]
  · rw [if_neg h]
    have hany : ¬ (acc.any (fun x => x.id == e.id) = true) := by
      intro hc
      rcases List.any_eq_true.1 hc with ⟨x, hx, hbx⟩
      exact h (List.mem_map.2 ⟨x, hx, by simpa using hbx⟩)
    rw [if_neg hany]
    simp [idsOf]

theorem mem_idsOf_foldl (l : List RawEvent) (acc : List RawEvent) (x : String) :
    x ∈ idsOf (l.foldl upsert acc) ↔ x ∈ idsOf acc ∨ x ∈ idsOf l := by
  induction l generalizing acc with
  | nil => simp [idsOf]
  | cons a t ih =>
    rw [List.foldl_cons, ih]
    have hup : x ∈ idsOf (upsert acc a) ↔ x ∈ idsOf acc ∨ x = a.id := by
      rw [idsOf_upsert]
      by_cases h : a.id ∈ idsOf acc
      · simp only [if_pos h]
        constructor
        · exact Or.inl
        · rintro (hx | rfl)
          · exact hx
          · exact h
      · simp [if_neg h]
    rw [hup]
    simp only [idsOf, List.map_cons, List.mem_cons]
    tauto

theorem nodup_idsOf_foldl (l : List RawEvent) (acc : List RawEvent)
    (h : (idsOf acc).Nodup) : (idsOf (l.foldl upsert acc)).Nodup := by
  induction l generalizing acc with
  | nil => exact h
  | cons a t ih =>
    rw [List.foldl_cons]
    apply ih
    rw [idsOf_upsert]
    by_cases hm : a.id ∈ idsOf acc
    · simpa [hm] using h
    · simp [hm, List.nodup_append, h]

theorem mem_upsert_of_ne {acc : List RawEvent} {a e : RawEvent}
    (he : e ∈ upsert acc a) (hne : e.id ≠ a.id) : e ∈ acc := by
  unfold upsert at he
  by_cases h : acc.any (fun x => x.id == a.id) = true
  · rw [if_pos h] at he
    rcases List.mem_map.1 he with ⟨x, hx, hfx⟩
    by_cases hxa : x.id = a.id
    · rw [if_pos (by simpa using hxa)] at hfx
      exact absurd (hfx ▸ rfl : e.id = a.id) hne
    · rw [if_neg (by simpa using hxa)] at hfx
      exact hfx ▸ hx
  · rw [if_neg h] at he
    rcases List.mem_append.1 he with hx | hx
    · exact hx
    · exact absurd (by simpa using congrArg RawEvent.id (List.mem_singleton.1 hx)) hne

theorem mem_upsert_self {acc : List RawEvent} {a e : RawEvent}
    (he : e ∈ upsert acc a) (hid : e.id = a.id) : e = a := by
  unfold upsert at he
  by_cases h : acc.any (fun x => x.id == a.id) = true
  · rw [if_pos h] at he
    rcases List.mem_map.1 he with ⟨x, hx, hfx⟩
    by_cases hxa : x.id = a.id
    · rw [if_pos (by simpa using hxa)] at hfx
      exact hfx.symm
    · rw [if_neg (by simpa using hxa)] at hfx
      exact absurd (hfx ▸ hid) hxa
  · rw [if_neg h] at he
    rcases List.mem_append.1 he with hx | hx
    · exact absurd (List.any_eq_true.2 ⟨e, hx, by simp [hid]⟩) h
    · exact List.mem_singleton.1 hx

theorem mem_foldl_notin {l acc : List RawEvent} {e : RawEvent}
    (he : e ∈ l.foldl upsert acc) (hni : e.id ∉ idsOf l) : e ∈ acc := by
  induction l generalizing acc with
  | nil => exact he
  | cons a t ih =>
    rw [List.foldl_cons] at he
    have h1 : e.id ∉ idsOf t := fun hx => hni (by simp [idsOf] at hx ⊢; exact Or.inr hx)
    have h2 : e.id ≠ a.id := fun hx => hni (by simp [idsOf, hx])
    exact mem_upsert_of_ne (ih he h1) h2

theorem mem_foldl_of_mem_ids {l acc : List RawEvent} {e : RawEvent}
    (he : e ∈ l.foldl upsert acc) (hin : e.id ∈ idsOf l) : e ∈ l := by
  induction l generalizing acc with
  | nil => simp [idsOf] at hin
  | cons a t ih =>
    rw [List.foldl_cons] at he
    by_cases ht : e.id ∈ idsOf t
    · exact List.mem_cons_of_mem a (ih he ht)
    · have hup : e ∈ upsert acc a := mem_foldl_notin he ht
      have hid : e.id = a.id := by
        rcases (by simpa [idsOf] using hin : e.id = a.id ∨ e.id ∈ idsOf t) with h | h
        · exact h
        · exact absurd h ht
      rw [mem_upsert_self hup hid]
      exact List.mem_cons_self a t

/-- C1: merging the two event collections by identifier yields unique
identifiers, the identifier set is the union of both inputs' identifier
sets, and an identifier occurring in both collections keeps the entry of
the later (secondary) collection. -/
theorem mergeById_spec (user received : List RawEvent) :
    (idsOf (dedupeById (user ++ received))).Nodup ∧
    (∀ x, x ∈ idsOf (dedupeById (user ++ received)) ↔
        x ∈ idsOf user ∨ x ∈ idsOf received) ∧
    (∀ e ∈ dedupeById (user ++ received),
        e.id ∈ idsOf user → e.id ∈ idsOf received → e ∈ received) := by
  refine ⟨?_, ?_, ?_⟩
  · exact nodup_idsOf_foldl _ _ (by simp [idsOf])
  · intro x
    rw [dedupeById, mem_idsOf_foldl]
    simp [idsOf, List.mem_append]
  · intro e he _ hr
    rw [dedupeById, List.foldl_append] at he
    exact mem_foldl_of_mem_ids he hr

def rawW1 : RawEvent := ⟨"1", "WatchEvent", none, none, none, 100⟩

def rawW2 : RawEvent := ⟨"1", "ForkEvent", none, none, none, 200⟩

/-- Witness for C1 at a concrete pair of one-event collections sharing an
identifier: the kept entry is the secondary one. -/
theorem mergeById_spec_witness :
    rawW2 ∈ dedupeById ([rawW1] ++ [rawW2]) ∧ rawW2 ∈ [rawW2] :=
  ⟨by decide, (mergeById_spec [rawW1] [rawW2]).2.2 rawW2 (by decide) (by decide) (by decide)⟩

/-- C2: the server's normalize-and-sort output and the presenter's unified
view are both in non-increasing order of timestamp. -/
theorem feed_sorted (l : List RawEvent) (gh : List NormalizedEvent)
    (locals : List MyActivityEvent) :
    (serverNormalizeSort l).Sorted (keyGE (fun e => e.created_at)) ∧
    (unified gh locals).Sorted (keyGE UnifiedItem.created_at) :=
  ⟨List.sorted_insertionSort _ _, List.sorted_insertionSort _ _⟩

/-- C10: normalization preserves the identity fields id, type and
created_at of the raw event in every branch of the dispatch. -/
theorem normalizeEvent_preserves_identity (e : RawEvent) :
    (normalizeEvent e).id = e.id ∧ (normalizeEvent e).type = e.type ∧
    (normalizeEvent e).created_at = e.created_at := by
  unfold normalizeEvent
  split <;> simp

/-- Decoding inverts encoding on one capture event. -/
theorem decodeEvent_encodeEvent (e : MyActivityEvent) :
    decodeEvent (encodeEvent e) = some e := by
  obtain ⟨id, ty, lb, ca, m, ic⟩ := e
  cases m <;> cases ty <;> rfl

/-- C8: exporting the local capture list and importing the resulting file
reproduces an equal list, same entries in the same order. -/
theorem export_import_roundtrip (l : List MyActivityEvent) :
    onImport (exportLocal l) = some l := by
  have key : ∀ l : List MyActivityEvent,
      decodeItems (l.map encodeEvent) = some l := by
    intro l
    induction l with
    | nil => rfl
    | cons e t ih => simp [decodeItems, decodeEvent_encodeEvent, ih]
  simpa [onImport, exportLocal] using key l

/-- Watermark accumulated by a run of scroll observations while tracking. -/
theorem runTrack_scrolls (m : Nat) (ds : List Nat) :
    runTrack ⟨true, m⟩ (ds.map TrackAction.scrollTo) = ⟨true, ds.foldl max m⟩ := by
  induction ds generalizing m with
  | nil => rfl
  | cons d t ih =>
    rw [List.map_cons, runTrack, List.foldl_cons]
    have hmax : max m d = if m < d then d else m := by
      rcases Nat.lt_or_ge m d with h | h
      · simp [h, Nat.max_eq_right h.le]
      · simp [Nat.max_eq_left h, Nat.not_lt.2 h]
    by_cases h : m < d
    · simpa [trackStep, h, runTrack, hmax] using ih d
    · simpa [trackStep, h, runTrack, hmax] using ih m

/-- C9: within one capturing session a scroll event is emitted exactly when
the depth strictly exceeds the maximum depth observed so far in the
session, and toggling capture off then on restarts the session with the
watermark at zero regardless of the previous state. -/
theorem scroll_watermark_spec (ds : List Nat) (d : Nat) (s : TrackState) :
    (scrollEmits (runTrack trackingOn (ds.map TrackAction.scrollTo)) d = true ↔
      ds.foldl max 0 < d) ∧
    runTrack s [TrackAction.toggle false, TrackAction.toggle true] = trackingOn := by
  constructor
  · rw [show trackingOn = (⟨true, 0⟩ : TrackState) from rfl, runTrack_scrolls]
    simp [scrollEmits]
  · obtain ⟨tr, mx⟩ := s
    cases tr <;> rfl

/-- Witness for C9: a previous session that reached depth 80 does not
suppress a 50-percent scroll in a fresh session after toggling capture off
and on. -/
theorem scroll_watermark_spec_witness :
    scrollEmits
      (runTrack (runTrack ⟨true, 80⟩ [TrackAction.toggle false, TrackAction.toggle true])
        ([].map TrackAction.scrollTo)) 50 = true := by
  rw [(scroll_watermark_spec [] 50 ⟨true, 80⟩).2]
  exact (scroll_watermark_spec [] 50 ⟨true, 80⟩).1.mpr (by decide)

def evRoute : MyActivityEvent :=
  ⟨"r1", CaptureType.routeChange, "/a → /b", 100, none, "route-change"⟩

/-- Counterexample to C5 as stated: a route-change addition to a list
already holding 2000 entries yields 2001 entries, because the route-change
effect prepends without the cap applied by the shared helper. -/
theorem addRouteChange_uncapped_counterexample :
    ¬ ((addRouteChange evRoute (List.replicate 2000 evRoute)).length ≤ 2000) := by
  rw [addRouteChange, List.length_cons, List.length_replicate]
  omega

/-- C5 amended: additions through the shared helper keep at most 2000
entries and keep exactly the most recent ones (an initial segment of the
prepended list), while the route-change effect prepends without trimming. -/
theorem addCapped_bounded (e : MyActivityEvent) (prev : List MyActivityEvent) :
    (addCapped e prev).length = min 2000 (prev.length + 1) ∧
    (∀ i, i < 2000 → (addCapped e prev)[i]? = (e :: prev)[i]?) ∧
    (addRouteChange e prev).length = prev.length + 1 := by
  refine ⟨?_, fun i hi => ?_, by rw [addRouteChange, List.length_cons]⟩
  · rw [addCapped, List.length_take, List.length_cons]
  · rw [addCapped, List.getElem?_take_of_lt hi]

/-- Witness for C5 amended at a concrete one-element addition. -/
theorem addCapped_bounded_witness :
    (addCapped evRoute []).length = min 2000 1 ∧
    (addCapped evRoute [])[0]? = some evRoute :=
  ⟨(addCapped_bounded evRoute []).1,
   ((addCapped_bounded evRoute []).2.1 0 (by decide)).trans rfl⟩

/-- Presence rule of one rate counter. -/
theorem headerNum_eq_some (h : Option String) (q : ℚ) :
    headerNum h = some q ↔
      ∃ s, h = some s ∧ s ≠ "" ∧ jsNum s = some q ∧ q ≠ 0 := by
  cases h with
  | none => simp [headerNum]
  | some s =>
    simp only [headerNum]
    by_cases hs0 : s = ""
    · simp [hs0]
    · rw [if_neg hs0]
      cases hjs : jsNum s with
      | none => simp [hjs, hs0]
      | some q' =>
        by_cases hq : q' = 0
        · simp [hjs, hs0, hq]
          intro h
          exact h.symm
        · simp only [hq, if_neg]
          constructor
          · rintro h
            exact ⟨s, rfl, hs0, by rw [hjs, Option.some_inj.1 h], by rw [← Option.some_inj.1 h]; exact hq⟩
          · rintro ⟨s', hs', _, hjs', hq'⟩
            cases Option.some_inj.1 hs'
            rw [hjs] at hjs'
            exact hjs'

/-- C4 amended: a rate counter is present with the numeric value of its
header exactly when the header is present, non-empty, numeric and nonzero;
it is absent when the header is missing, empty, non-numeric, or zero. -/
theorem mkRate_spec (hs : List (String × String)) (q : ℚ) :
    ((mkRate hs).limit = some q ↔
      ∃ s, getHeader hs "x-ratelimit-limit" = some s ∧ s ≠ "" ∧
        jsNum s = some q ∧ q ≠ 0) ∧
    ((mkRate hs).remaining = some q ↔
      ∃ s, getHeader hs "x-ratelimit-remaining" = some s ∧ s ≠ "" ∧
        jsNum s = some q ∧ q ≠ 0) ∧
    ((mkRate hs).reset = some q ↔
      ∃ s, getHeader hs "x-ratelimit-reset" = some s ∧ s ≠ "" ∧
        jsNum s = some q ∧ q ≠ 0) :=
  ⟨headerNum_eq_some _ q, headerNum_eq_some _ q, headerNum_eq_some _ q⟩

/-- Counterexample to C4 as stated: the header value 0 is numeric, yet the
counter is absent, because a zero conversion is falsy and the expression
falls through to undefined. -/
theorem rate_zero_header_counterexample :
    getHeader [("x-ratelimit-remaining", "0")] "x-ratelimit-remaining" = some "0" ∧
    jsNum "0" = some 0 ∧
    (mkRate [("x-ratelimit-remaining", "0")]).remaining = none :=
  ⟨by decide, by decide, by decide⟩

def uOk200 : HttpResponse := ⟨true, 200, [], "", []⟩

/-- Counterexample to C3 as stated: a rejected secondary fetch (a network
failure rather than an unsuccessful HTTP status) rejects the joint await,
so the route responds 500 even though the primary fetch succeeded. -/
theorem secondary_rejection_counterexample :
    (GET (some "alice") true (Except.ok uOk200) (Except.error "fetch failed")).status = 500 ∧
    (GET (some "alice") true (Except.ok uOk200) (Except.error "fetch failed")).status ≠ 200 :=
  ⟨by decide, by decide⟩

/-- C3 amended: when the primary fetch succeeds and the secondary fetch
fulfills with an unsuccessful HTTP status, that failure is swallowed: the
response has status 200 and its events are those of the primary source
alone. -/
theorem secondary_http_failure_swallowed (un : String) (u r : HttpResponse)
    (hun : un ≠ "") (hu : u.ok = true) (hr : r.ok = false) :
    (GET (some un) true (Except.ok u) (Except.ok r)).status = 200 ∧
    eventsOf (GET (some un) true (Except.ok u) (Except.ok r)) =
      serverNormalizeSort (dedupeById u.bodyEvents) := by
  simp [GET, hun, hu, hr, eventsOf]

def rFail502 : HttpResponse := ⟨false, 502, [], "bad gateway", []⟩

/-- Witness for C3 amended at a concrete pair of responses. -/
theorem secondary_http_failure_swallowed_witness :
    (GET (some "alice") true (Except.ok uOk200) (Except.ok rFail502)).status = 200 ∧
    eventsOf (GET (some "alice") true (Except.ok uOk200) (Except.ok rFail502)) =
      serverNormalizeSort (dedupeById uOk200.bodyEvents) :=
  secondary_http_failure_swallowed "alice" uOk200 rFail502
    (by decide) (by decide) (by decide)

def u404 : HttpResponse := ⟨false, 404, [], "", []⟩

/-- Counterexample to C6 as stated: an unsuccessful upstream response with
an empty body is answered with the fixed message instead of an echo of the
empty body text. -/
theorem upstream_empty_body_counterexample :
    (GET (some "alice") false (Except.ok u404) (Except.ok u404)).status = 404 ∧
    (GET (some "alice") false (Except.ok u404) (Except.ok u404)).body =
      ApiBody.err "GitHub error" ∧
    (GET (some "alice") false (Except.ok u404) (Except.ok u404)).body ≠
      ApiBody.err u404.bodyText :=
  ⟨by decide, by decide, by decide⟩

/-- C6 amended: when the primary fetch fulfills with a non-success status
(and the joint await does not reject), the route responds with exactly the
upstream status; the error field echoes the upstream body text when that
text is non-empty, and is the fixed message otherwise. -/
theorem upstream_error_passthrough (un : String) (inc : Bool) (u r : HttpResponse)
    (hun : un ≠ "") (hu : u.ok = false) :
    (GET (some un) inc (Except.ok u) (Except.ok r)).status = u.status ∧
    (u.bodyText ≠ "" →
      (GET (some un) inc (Except.ok u) (Except.ok r)).body = ApiBody.err u.bodyText) ∧
    (u.bodyText = "" →
      (GET (some un) inc (Except.ok u) (Except.ok r)).body = ApiBody.err "GitHub error") := by
  refine ⟨?_, fun h => ?_, fun h => ?_⟩
  · cases inc <;> simp [GET, hun, hu]
  · cases inc <;> simp [GET, hun, hu, h]
  · cases inc <;> simp [GET, hun, hu, h]

def uNF : HttpResponse := ⟨false, 404, [], "Not Found", []⟩

/-- Witness for C6 amended at a concrete upstream 404 with body text. -/
theorem upstream_error_passthrough_witness :
    (GET (some "bob") false (Except.ok uNF) (Except.ok uNF)).status = 404 ∧
    (GET (some "bob") false (Except.ok uNF) (Except.ok uNF)).body =
      ApiBody.err "Not Found" :=
  ⟨(upstream_error_passthrough "bob" false uNF uNF (by decide) (by decide)).1,
   (upstream_error_passthrough "bob" false uNF uNF (by decide) (by decide)).2.1
     (by decide)⟩

/-- Counterexample to C7 as stated: the route parses and forwards a
page-size of 500, outside the range 1 to 100. -/
theorem perPage_unbounded_counterexample :
    serverPerPage (some "500") = some 500 ∧ ¬ ((500 : ℚ) ≤ 100) :=
  ⟨by decide, by decide⟩

/-- C7 amended: the page size defaults to 30 when the parameter is absent
or empty, the client-side schema accepts exactly numbers between 1 and 100,
and the route forwards the parsed number without bounding it. -/
theorem perPage_spec :
    (∀ q : ℚ, githubSchemaPerPage (some q) = some q ↔ 1 ≤ q ∧ q ≤ 100) ∧
    githubSchemaPerPage none = some 30 ∧
    serverPerPage none = some 30 ∧
    serverPerPage (some "") = some 30 ∧
    (∃ s q, serverPerPage (some s) = some q ∧ (100 : ℚ) < q) := by
  refine ⟨fun q => ?_, rfl, by decide, by decide, ⟨"500", 500, by decide, by decide⟩⟩
  unfold githubSchemaPerPage
  by_cases h : 1 ≤ q ∧ q ≤ 100 <;> simp [h]
